import Mathlib

/-!
Verification of the transcript acquisition and enrichment pipeline.

The development shallowly embeds the JavaScript sources:
  backend/services/YouTubeService.js    (URL parsing, subtitle parsing)
  backend/services/OpenRouterService.js (inference client, fallback heuristics)
  backend/services/TranscriptProcessor  (pipeline, caching, insights)
  frontend/js/services/AlService.js     (request retry wrapper, batch queue)

JavaScript numbers are modelled as `ℚ` where only exact arithmetic occurs,
and as `Option ℚ` (with `none` playing the role of `NaN`) where a `NaN`
can arise.  Stateful code threads an explicit state record.  Each embedded
definition carries the name of the source function it translates.
-/

/-! ## JavaScript string primitives (over `List Char`, kernel-computable) -/

/-- The character set of the JavaScript `\s` class (as used by `String.prototype.trim`
and regex whitespace): ASCII whitespace, NBSP, the Unicode space separators,
line/paragraph separators and the BOM. -/
def isJsSpace (c : Char) : Bool :=
  c.toNat = 32 || c.toNat = 9 || c.toNat = 10 || c.toNat = 11 || c.toNat = 12 ||
  c.toNat = 13 || c.toNat = 0xa0 || c.toNat = 0x1680 ||
  (0x2000 ≤ c.toNat && c.toNat ≤ 0x200a) || c.toNat = 0x2028 || c.toNat = 0x2029 ||
  c.toNat = 0x202f || c.toNat = 0x205f || c.toNat = 0x3000 || c.toNat = 0xfeff

/-- JavaScript `String.prototype.trim` on a character list. -/
def jsTrimL (l : List Char) : List Char :=
  ((l.dropWhile isJsSpace).reverse.dropWhile isJsSpace).reverse

/-- JavaScript `String.prototype.trim`. -/
def jsTrim (s : String) : String := ⟨jsTrimL s.data⟩

/-- JavaScript `str.split(c)` for a single-character separator: keeps empty
pieces, yields one piece more than the number of separators. -/
def splitChar (p : Char → Bool) : List Char → List (List Char)
  | [] => [[]]
  | c :: r =>
    if p c then [] :: splitChar p r
    else
      match splitChar p r with
      | [] => [[c]]
      | g :: gs => (c :: g) :: gs

/-- `str.split(sep)` pieces of `s`, as strings. -/
def jsSplit (s : String) (p : Char → Bool) : List String :=
  (splitChar p s.data).map String.mk

/-- Strip a literal character sequence from the front of a list, returning the
remainder on success. -/
def stripLit : List Char → List Char → Option (List Char)
  | [], l => some l
  | _, [] => none
  | p :: ps, c :: r => if c = p then stripLit ps r else none

/-- JavaScript `str.split(sep)` for a multi-character separator, with explicit
fuel (one unit per consumed character; `fuel = l.length` always suffices). -/
def splitOnStrGo (sep : List Char) : Nat → List Char → List Char → List (List Char)
  | _, acc, [] => [acc.reverse]
  | 0, acc, l => [acc.reverse ++ l]
  | fuel + 1, acc, c :: r =>
    match stripLit sep (c :: r) with
    | some rest => acc.reverse :: splitOnStrGo sep fuel [] rest
    | none => splitOnStrGo sep fuel (c :: acc) r

/-- JavaScript `str.split(sep)` for a non-empty string separator. -/
def splitOnStr (sep : List Char) (l : List Char) : List (List Char) :=
  splitOnStrGo sep l.length [] l

/-- `sep` occurs as a contiguous substring (used for `str.includes(sep)`). -/
def containsSeq : List Char → List Char → Bool
  | [], _ => false
  | c :: r, sep =>
    match stripLit sep (c :: r) with
    | some _ => true
    | none => containsSeq r sep

/-- JavaScript `str.includes(sub)` for non-empty `sub`. -/
def jsIncludes (s : String) (sub : String) : Bool := containsSeq s.data sub.data

/-- JavaScript `str.toLowerCase()` (ASCII range, the only one exercised). -/
def jsToLower (s : String) : String := ⟨s.data.map Char.toLower⟩

/-! ## JavaScript number primitives -/

/-- Decimal value of a digit list (most significant first). -/
def digitsToNat (l : List Char) : Nat :=
  l.foldl (fun a c => a * 10 + (c.toNat - 48)) 0

/-- JavaScript `parseInt(s)` (base-10 form, as exercised by timestamp parsing):
skip leading whitespace, optional sign, then a non-empty digit run; `none`
models `NaN`. -/
def parseIntJS (s : String) : Option ℤ :=
  match s.data.dropWhile isJsSpace with
  | [] => none
  | c :: r =>
    if c = '-' then
      (if r.takeWhile Char.isDigit = [] then none
       else some (-(digitsToNat (r.takeWhile Char.isDigit) : ℤ)))
    else if c = '+' then
      (if r.takeWhile Char.isDigit = [] then none
       else some (digitsToNat (r.takeWhile Char.isDigit)))
    else
      (if (c :: r).takeWhile Char.isDigit = [] then none
       else some (digitsToNat ((c :: r).takeWhile Char.isDigit)))

/-- Exponent suffix of the JavaScript float grammar (`e`/`E`, optional sign,
digits); an invalid suffix is ignored, as `parseFloat` takes the longest
valid prefix. -/
def applyExp (v : ℚ) : List Char → ℚ
  | [] => v
  | c :: r =>
    if c = 'e' ∨ c = 'E' then
      match r with
      | [] => v
      | d :: r2 =>
        if d = '-' then
          (if r2.takeWhile Char.isDigit = [] then v
           else v / 10 ^ digitsToNat (r2.takeWhile Char.isDigit))
        else if d = '+' then
          (if r2.takeWhile Char.isDigit = [] then v
           else v * 10 ^ digitsToNat (r2.takeWhile Char.isDigit))
        else
          (if (d :: r2).takeWhile Char.isDigit = [] then v
           else v * 10 ^ digitsToNat ((d :: r2).takeWhile Char.isDigit))
    else v

/-- Integer-dot-fraction value: `ip . fp`. -/
def intFracVal (ip fp : List Char) : ℚ :=
  (digitsToNat ip : ℚ) + (digitsToNat fp : ℚ) / 10 ^ fp.length

/-- JavaScript `parseFloat(s)` (decimal notation with optional exponent;
the `Infinity` literal is not modelled as no caller can produce it):
longest valid numeric prefix, `none` models `NaN`. -/
def parseFloatJS (s : String) : Option ℚ :=
  match s.data.dropWhile isJsSpace with
  | [] => none
  | c0 :: r0 =>
    let body := fun (sgn : ℚ) (l1 : List Char) =>
      let ip := l1.takeWhile Char.isDigit
      let l2 := l1.dropWhile Char.isDigit
      match l2 with
      | [] => if ip = [] then none else some (sgn * applyExp (intFracVal ip []) [])
      | c :: r =>
        if c = '.' then
          let fp := r.takeWhile Char.isDigit
          let l3 := r.dropWhile Char.isDigit
          if ip = [] ∧ fp = [] then none
          else some (sgn * applyExp (intFracVal ip fp) l3)
        else if ip = [] then none
        else some (sgn * applyExp (intFracVal ip []) (c :: r))
    if c0 = '-' then body (-1) r0
    else if c0 = '+' then body 1 r0
    else body 1 (c0 :: r0)

/-- JavaScript `Math.round`: round half towards positive infinity. -/
def jsRound (q : ℚ) : ℤ := ⌊q + 1 / 2⌋

/-- JavaScript `str.replace(',', '.')`: replaces only the first comma. -/
def replaceFirstComma : List Char → List Char
  | [] => []
  | c :: r => if c = ',' then '.' :: r else c :: replaceFirstComma r

/-! ## `YouTubeService.extractVideoId`

The source tries four regular expressions in order and returns the first
11-character capture.  Each pattern is embedded as a backtracking matcher
over `List Char`: positions are tried left to right, alternatives and
quantifier splits in the order the regex engine would try them (greedy,
longest first). -/

/-- The class `[^"&?\/\s]` of characters allowed in a captured video id. -/
def videoIdForbidden (c : Char) : Bool :=
  c = '"' || c = '&' || c = '?' || c = '/' || isJsSpace c

/-- Capture `([^"&?\/\s]{11})`: exactly `n` allowed characters. -/
def takeCapture : Nat → List Char → Option (List Char)
  | 0, _ => some []
  | _ + 1, [] => none
  | n + 1, c :: r =>
    if videoIdForbidden c then none else (takeCapture n r).map (c :: ·)

/-- All splits `l = prefixPart ++ suffixPart`, shortest prefix first. -/
def splitsOf : List Char → List (List Char × List Char)
  | [] => [([], [])]
  | c :: r => ([], c :: r) :: (splitsOf r).map (fun p => (c :: p.1, p.2))

/-- First alternative (in order) on which `f` succeeds. -/
def firstSome (f : α → Option β) : List α → Option β
  | [] => none
  | a :: r =>
    match f a with
    | some b => some b
    | none => firstSome f r

/-- The regex `.` without the `s` flag: any char except a line terminator. -/
def isDotChar (c : Char) : Bool :=
  !(c = '\n' || c = '\r' || c.toNat = 0x2028 || c.toNat = 0x2029)

/-- Sub-pattern `[^\/]+\/.+\/` followed by the capture, with greedy
backtracking (longest quantifier matches first). -/
def p1SlashesAt (rest : List Char) : Option (List Char) :=
  firstSome
    (fun x =>
      if x.1 ≠ [] ∧ x.1.all (fun c => ¬ c = '/') then
        match x.2 with
        | '/' :: r2 =>
          firstSome
            (fun y =>
              if y.1 ≠ [] ∧ y.1.all isDotChar then
                match y.2 with
                | '/' :: r4 => takeCapture 11 r4
                | _ => none
              else none)
            (splitsOf r2).reverse
        | _ => none
      else none)
    (splitsOf rest).reverse

/-- Sub-pattern `(?:v|e(?:mbed)?)\/` followed by the capture; the regex
alternation order is `v/`, then `embed/`, then `e/`. -/
def p1ShortAt (rest : List Char) : Option (List Char) :=
  firstSome (fun lit => (stripLit lit rest).bind (takeCapture 11))
    [['v', '/'], ['e', 'm', 'b', 'e', 'd', '/'], ['e', '/']]

/-- Sub-pattern `.*[?&]v=` followed by the capture, greedy. -/
def p1QueryAt (rest : List Char) : Option (List Char) :=
  firstSome
    (fun x =>
      if x.1.all isDotChar then
        match x.2 with
        | '?' :: 'v' :: '=' :: r2 => takeCapture 11 r2
        | '&' :: 'v' :: '=' :: r2 => takeCapture 11 r2
        | _ => none
      else none)
    (splitsOf rest).reverse

/-- Pattern 1,
`(?:youtube\.com\/(?:[^\/]+\/.+\/|(?:v|e(?:mbed)?)\/|.*[?&]v=)|youtu\.be\/)([^"&?\/\s]{11})`,
tried at one start position. -/
def p1At (l : List Char) : Option (List Char) :=
  match stripLit "youtube.com/".data l with
  | some rest =>
    ((p1SlashesAt rest).orElse fun _ => p1ShortAt rest).orElse fun _ => p1QueryAt rest
  | none => (stripLit "youtu.be/".data l).bind (takeCapture 11)

/-- Pattern 2, `youtube\.com\/watch\?v=([^"&?\/\s]{11})`, at one position. -/
def p2At (l : List Char) : Option (List Char) :=
  (stripLit "youtube.com/watch?v=".data l).bind (takeCapture 11)

/-- Pattern 3, `youtube\.com\/embed\/([^"&?\/\s]{11})`, at one position. -/
def p3At (l : List Char) : Option (List Char) :=
  (stripLit "youtube.com/embed/".data l).bind (takeCapture 11)

/-- Pattern 4, `youtu\.be\/([^"&?\/\s]{11})`, at one position. -/
def p4At (l : List Char) : Option (List Char) :=
  (stripLit "youtu.be/".data l).bind (takeCapture 11)

/-- `str.match(re)`: try the pattern at every start position, leftmost first. -/
def scanWith (f : List Char → Option (List Char)) : List Char → Option (List Char)
  | [] => f []
  | l@(_ :: r) =>
    match f l with
    | some c => some c
    | none => scanWith f r

/-- `YouTubeService.extractVideoId(url)`: `null` for an empty (falsy) input,
otherwise the first pattern's capture, in pattern order. -/
def extractVideoId (url : String) : Option String :=
  if url = "" then none
  else
    match scanWith p1At url.data with
    | some c => some ⟨c⟩
    | none =>
      match scanWith p2At url.data with
      | some c => some ⟨c⟩
      | none =>
        match scanWith p3At url.data with
        | some c => some ⟨c⟩
        | none =>
          match scanWith p4At url.data with
          | some c => some ⟨c⟩
          | none => none

/-! ## `YouTubeService` subtitle parsing -/

/-- `YouTubeService.parseVTTTime(timeStr)`: splits on `:`; with exactly three
parts computes `hours*3600 + minutes*60 + seconds` (comma accepted as decimal
point in the seconds part), any other shape yields `0`.  `none` models a `NaN`
result from `parseInt`/`parseFloat` on a malformed part. -/
def parseVTTTime (timeStr : String) : Option ℚ :=
  match jsSplit timeStr (· = ':') with
  | [p0, p1, p2] =>
    match parseIntJS p0, parseIntJS p1, parseFloatJS ⟨replaceFirstComma p2.data⟩ with
    | some h, some m, some s => some ((h : ℚ) * 3600 + (m : ℚ) * 60 + s)
    | _, _, _ => none
  | _ => some 0

/-- One cue of `parseVTTFile`'s intermediate `captions` array: parsed start
and end times plus accumulated text. -/
structure VTTCue where
  start : Option ℚ
  stop : Option ℚ
  text : String
deriving DecidableEq

/-- A timed caption entry as returned by `parseVTTFile`: `duration = end - start`. -/
structure VTTEntry where
  text : String
  start : Option ℚ
  duration : Option ℚ
deriving DecidableEq

/-- `NaN`-propagating subtraction of JavaScript numbers. -/
def subJS : Option ℚ → Option ℚ → Option ℚ
  | some a, some b => some (a - b)
  | _, _ => none

/-- The final `captions.map` of `parseVTTFile`. -/
def vttEntryOfCue (c : VTTCue) : VTTEntry :=
  { text := c.text, start := c.start, duration := subJS c.stop c.start }

/-- `lineTrimmed.includes('-->')`. -/
def hasArrow (t : String) : Bool := jsIncludes t "-->"

/-- The current caption, if any, pushed on reaching a new timestamp line. -/
def pushCur : Option VTTCue → List VTTCue
  | some c => [c]
  | none => []

/-- The line-by-line state walk of `YouTubeService.parseVTTFile`: skips blanks,
the `WEBVTT` header and bare cue-index lines, opens a cue on each `-->` line
(pushing the previous cue), accumulates text lines joined by single spaces,
and pushes a trailing cue only when its text is non-empty. -/
def parseVTTLines : Option VTTCue → List String → List VTTCue
  | cur, [] =>
    (match cur with
     | some c => if c.text = "" then [] else [c]
     | none => [])
  | cur, line :: rest =>
    let t := jsTrim line
    if t = "" then parseVTTLines cur rest
    else if t = "WEBVTT" then parseVTTLines cur rest
    else if hasArrow t then
      pushCur cur ++
        (match splitOnStr "-->".data t.data with
         | [a, b] =>
           parseVTTLines
             (some { start := parseVTTTime (jsTrim ⟨a⟩), stop := parseVTTTime (jsTrim ⟨b⟩), text := "" })
             rest
         | _ => parseVTTLines none rest)
    else
      match cur with
      | some c =>
        if t.data.all Char.isDigit then parseVTTLines (some c) rest
        else
          parseVTTLines
            (some { c with text := c.text ++ (if c.text = "" then "" else " ") ++ t })
            rest
      | none => parseVTTLines none rest

/-- The `captions` array built by `YouTubeService.parseVTTFile(content)`. -/
def parseVTTCues (content : String) : List VTTCue :=
  parseVTTLines none (jsSplit content (· = '\n'))

/-- `YouTubeService.parseVTTFile(content)`. -/
def parseVTTFile (content : String) : List VTTEntry :=
  (parseVTTCues content).map vttEntryOfCue

/-! ## Timed entries and `OpenRouterService.fallbackSentenceSplit` -/

/-- The uniform timed caption model `{text, start, duration}`, also the shape
of the sentence objects produced by sentence splitting. -/
structure TimedEntry where
  text : String
  start : ℚ
  duration : ℚ
deriving DecidableEq

/-- `entry.text.match(/[.!?]/)` is truthy: the text contains a sentence
terminator anywhere (not merely at its end). -/
def sentenceEnd (s : String) : Bool :=
  s.data.any (fun c => c = '.' || c = '!' || c = '?')

/-- The `forEach` loop of `OpenRouterService.fallbackSentenceSplit`, carrying
`currentSentence` and `currentStart`.  A sentence closes when the current
entry's text contains `.`/`!`/`?` or the entry is the last one; the next
accumulation starts at the closing entry's `start + duration`. -/
def fallbackSplitGo : String → ℚ → List TimedEntry → List TimedEntry
  | _, _, [] => []
  | cur, curStart, e :: rest =>
    let cur2 := cur ++ " " ++ e.text
    if sentenceEnd e.text ∨ rest = [] then
      { text := jsTrim cur2, start := curStart, duration := e.start + e.duration - curStart }
        :: fallbackSplitGo "" (e.start + e.duration) rest
    else
      fallbackSplitGo cur2 curStart rest

/-- `OpenRouterService.fallbackSentenceSplit(transcriptEntries)`. -/
def fallbackSentenceSplit (entries : List TimedEntry) : List TimedEntry :=
  fallbackSplitGo ""
    (match entries with
     | [] => 0
     | e :: _ => e.start)
    entries

/-! Specification-level reformulation used by the amended claim C3: the entry
list is cut into maximal runs that close exactly after an entry whose text
contains a terminator (the final run closes at the end of the list), and each
run becomes one sentence. -/

/-- Cut the list into runs, closing a run after each entry satisfying `p`;
the last run is closed by the end of the list.  Every run is non-empty. -/
def sentenceRuns (p : TimedEntry → Bool) : List TimedEntry → List (List TimedEntry)
  | [] => []
  | e :: rest =>
    if p e ∨ rest = [] then [e] :: sentenceRuns p rest
    else
      match sentenceRuns p rest with
      | [] => [[e]]
      | g :: gs => (e :: g) :: gs

/-- Text accumulated over a run, starting from `cur`. -/
def runText (cur : String) (g : List TimedEntry) : String :=
  g.foldl (fun acc e => acc ++ " " ++ e.text) cur

/-- End time of the last entry of a run (`start + duration`), or the carried
start when the run is empty. -/
def runStop (curStart : ℚ) (g : List TimedEntry) : ℚ :=
  g.foldl (fun _ e => e.start + e.duration) curStart

/-- Sentences built from runs: each sentence starts at the carried start (the
first entry's start for the first run, afterwards the previous run's end) and
spans to its run's last entry's end. -/
def runsToSentences (cur : String) (curStart : ℚ) : List (List TimedEntry) → List TimedEntry
  | [] => []
  | g :: gs =>
    { text := jsTrim (runText cur g), start := curStart,
      duration := runStop curStart g - curStart }
      :: runsToSentences "" (runStop curStart g) gs

/-! ## `OpenRouterService` fallback heuristics -/

/-- JavaScript `text.split(' ')` (single-space separator, empty pieces kept). -/
def splitOnSpace (s : String) : List String := jsSplit s (· = ' ')

/-- `\w` of the regex `/(\w{8,})/`: ASCII letters, digits and underscore. -/
def isWordChar (c : Char) : Bool := c.isAlphanum || c = '_'

/-- Scanner for `/(\w{8,})/.test(s)`: `cnt` is the length of the current run
of word characters. -/
def wordRunFrom : List Char → Nat → Bool
  | [], cnt => 8 ≤ cnt
  | c :: r, cnt =>
    if 8 ≤ cnt then true
    else if isWordChar c then wordRunFrom r (cnt + 1)
    else wordRunFrom r 0

/-- `/(\w{8,})/.test(sentenceText)`: some run of at least 8 word characters. -/
def hasComplexWords (s : String) : Bool := wordRunFrom s.data 0

/-- The `Complexity` record.  JSON objects returned by the model are modelled
structurally; a missing property is modelled by `""` or `[]`. -/
structure Complexity where
  level : String
  complexity_score : ℚ
  grammar_points : List String
  vocabulary_level : String
  learning_tips : List String
deriving DecidableEq

/-- `OpenRouterService.fallbackComplexityAnalysis(sentenceText)`.  Note the
three conditions differ: the level uses `wordCount > 15 || hasComplexWords`,
the score only `wordCount > 15`, the vocabulary level only `hasComplexWords`. -/
def fallbackComplexityAnalysis (sentenceText : String) : Complexity :=
  { level := if 15 < (splitOnSpace sentenceText).length ∨ hasComplexWords sentenceText
             then "B1" else "A2",
    complexity_score := if 15 < (splitOnSpace sentenceText).length then 6 else 3,
    grammar_points := ["basic_sentence_structure"],
    vocabulary_level := if hasComplexWords sentenceText then "intermediate" else "basic",
    learning_tips := ["Practice pronunciation", "Learn vocabulary in context"] }

/-- The `Phrase` record.  The JS field `example` is `usageExample` here. -/
structure Phrase where
  phrase : String
  type : String
  meaning : String
  difficulty : String
  usageExample : String
deriving DecidableEq

/-- The fixed pattern table of `fallbackPhraseExtraction`, as
`(literal pattern, type, meaning)` (all four patterns are literal strings). -/
def commonPhrasesTable : List (String × String × String) :=
  [("how are you", "common_phrase", "Greeting asking about well-being"),
   ("thank you", "common_phrase", "Expression of gratitude"),
   ("look forward to", "phrasal_verb", "Anticipate with pleasure"),
   ("make sense", "expression", "Be understandable or logical")]

/-- `OpenRouterService.fallbackPhraseExtraction(sentenceText)`.  Each table
pattern is tested against the lowercased text; on a hit the phrase text is
taken from `sentenceText.match(pattern)[0]`, which matches the original,
non-lowercased text — when the original text contains the pattern only in a
different case this dereferences `null[0]` and throws (`Except.error`). -/
def fallbackPhraseExtraction (sentenceText : String) : Except Unit (List Phrase) :=
  commonPhrasesTable.foldlM
    (fun acc pat =>
      if jsIncludes (jsToLower sentenceText) pat.1 then
        if jsIncludes sentenceText pat.1 then
          Except.ok (acc ++
            [{ phrase := pat.1, type := pat.2.1, meaning := pat.2.2,
               difficulty := "easy",
               usageExample := "Example: \"" ++ sentenceText ++ "\"" }])
        else Except.error ()
      else Except.ok acc)
    []

/-! ## Data model of the enrichment pipeline -/

/-- A processed `Sentence`. -/
structure Sentence where
  id : String
  originalText : String
  translatedText : String
  startTime : ℚ
  duration : ℚ
  phrases : List Phrase
  complexity : Complexity
  wordCount : Nat
  characterCount : Nat
  hasIdioms : Bool
deriving DecidableEq

/-- The `insights` record of an artifact.  `difficultyDistribution` is an
insertion-ordered map; a value `none` models the `NaN` the source produces by
incrementing a key absent from the initial `{A1..C2}` record.
`averageSentenceLength` is `none` for the `NaN` of a division by zero. -/
structure Insights where
  totalSentences : Nat
  totalWords : Nat
  totalPhrases : Nat
  averageSentenceLength : Option ℤ
  difficultyDistribution : List (String × Option Nat)
  mostCommonDifficulty : Option String
  phraseTypeBreakdown : List (String × Nat)
  recommendedFocus : List String
  estimatedLearningTime : ℤ
deriving DecidableEq

/-- The `LearningArtifact` returned by `processTranscript`; `processedAt`
is a logical timestamp (`new Date()` reads, strictly increasing per run). -/
structure LearningArtifact where
  videoId : String
  language : String
  originalEntryCount : Nat
  processedSentenceCount : Nat
  sentences : List Sentence
  insights : Insights
  processedAt : Nat
deriving DecidableEq

/-! ## The inference oracle and service state -/

/-- The parsed shape of one inference response's content, from the point of
view of the call site that issued it: `text` is content on which `JSON.parse`
throws; the `json*` variants are content parsing to an array of sentence
objects, an array of phrase objects, or a complexity object respectively. -/
inductive AIVal where
  | text (s : String)
  | jsonArr (l : List TimedEntry)
  | jsonPhr (l : List Phrase)
  | jsonCpx (c : Complexity)
deriving DecidableEq

/-- One scripted outcome of the remote inference endpoint: the request either
fails (network error, non-2xx, exhaustion of the scripted responses) or
succeeds with content. -/
inductive AIResp where
  | failure
  | reply (v : AIVal)
deriving DecidableEq

/-- Shared mutable state of `TranscriptProcessor`/`OpenRouterService`: the
artifact cache, the scripted inference responses still to be consumed, the
number of inference requests performed, and a logical clock. -/
structure PState where
  cache : List (String × LearningArtifact)
  oracle : List AIResp
  calls : Nat
  time : Nat
deriving DecidableEq

/-- `Map.get` on the insertion-ordered cache. -/
def assocLookup : List (String × α) → String → Option α
  | [], _ => none
  | (k, v) :: rest, key => if k = key then some v else assocLookup rest key

/-- `Map.set`: overwrite in place, or append a new binding. -/
def assocSet : List (String × α) → String → α → List (String × α)
  | [], key, v => [(key, v)]
  | (k, w) :: rest, key, v =>
    if k = key then (k, v) :: rest else (k, w) :: assocSet rest key v

/-- `OpenRouterService.makeRequest(messages, taskType, maxTokens)`: one POST
to the inference endpoint — no retry; an axios error is rethrown as an
`AI processing failed` error (`Except.error`).  Consumes one scripted response
and counts one inference call. -/
def makeRequestOR (st : PState) : Except Unit AIVal × PState :=
  match st.oracle with
  | [] => (Except.error (), { st with calls := st.calls + 1 })
  | r :: rest =>
    (match r with
     | AIResp.failure => Except.error ()
     | AIResp.reply v => Except.ok v,
     { st with oracle := rest, calls := st.calls + 1 })

/-- The raw content string of a reply, as used by `translateText` and the tip
generator.  For the structured variants the raw JSON text is irrelevant to
every claim and is modelled as `""`. -/
def contentString : AIVal → String
  | AIVal.text s => s
  | _ => ""

/-- `OpenRouterService.fixTranscript`: one `makeRequest`; the corrected text
itself is never used by `processTranscript`. -/
def fixTranscript (st : PState) : Except Unit AIVal × PState := makeRequestOR st

/-- Result shape of `splitIntoSentences`: a sentence array, or successfully
parsed JSON that is not an array of sentence objects (iterating it throws in
`processSentences`, aborting the pipeline). -/
inductive SplitOutcome where
  | sents (l : List TimedEntry)
  | notArr
deriving DecidableEq

/-- `OpenRouterService.splitIntoSentences(transcriptEntries)`: a `makeRequest`
error propagates; content that fails `JSON.parse` triggers
`fallbackSentenceSplit`; parsed JSON of the wrong shape is passed through and
blows up downstream (`notArr`). -/
def splitIntoSentences (entries : List TimedEntry) (st : PState) :
    Except Unit SplitOutcome × PState :=
  let mr := makeRequestOR st
  (match mr.1 with
   | Except.error _ => Except.error ()
   | Except.ok (AIVal.jsonArr l) => Except.ok (SplitOutcome.sents l)
   | Except.ok (AIVal.text _) => Except.ok (SplitOutcome.sents (fallbackSentenceSplit entries))
   | Except.ok _ => Except.ok SplitOutcome.notArr,
   mr.2)

/-- `OpenRouterService.extractPhrases(sentenceText)`: a `makeRequest` error
propagates; content that is not a phrase array triggers
`fallbackPhraseExtraction` (whose own `TypeError` also propagates). -/
def extractPhrases (sentenceText : String) (st : PState) :
    Except Unit (List Phrase) × PState :=
  let mr := makeRequestOR st
  (match mr.1 with
   | Except.error _ => Except.error ()
   | Except.ok (AIVal.jsonPhr l) => Except.ok l
   | Except.ok _ => fallbackPhraseExtraction sentenceText,
   mr.2)

/-- `OpenRouterService.analyzeComplexity(sentenceText)`: a `makeRequest` error
propagates; content that is not a complexity object triggers
`fallbackComplexityAnalysis`. -/
def analyzeComplexity (sentenceText : String) (st : PState) :
    Except Unit Complexity × PState :=
  let mr := makeRequestOR st
  (match mr.1 with
   | Except.error _ => Except.error ()
   | Except.ok (AIVal.jsonCpx c) => Except.ok c
   | Except.ok _ => Except.ok (fallbackComplexityAnalysis sentenceText),
   mr.2)

/-- `OpenRouterService.translateText(text, targetLanguage)`: a `makeRequest`
error propagates, otherwise the returned content. -/
def translateText (st : PState) : Except Unit String × PState :=
  let mr := makeRequestOR st
  (match mr.1 with
   | Except.error _ => Except.error ()
   | Except.ok v => Except.ok (contentString v),
   mr.2)

/-! ## `TranscriptProcessor` -/

/-- Map with the element index, mirroring `array.map((x, index) => ...)`. -/
def mapWithIndex (f : Nat → α → β) : Nat → List α → List β
  | _, [] => []
  | i, a :: r => f i a :: mapWithIndex f (i + 1) r

/-- A fully processed sentence on the success path of `processSentences`.
`translation` is `none` when no translation was requested (`language = 'en'`);
a falsy (empty) translation also falls back to the original text. -/
def mkProcessedSentence (idx : Nat) (s : TimedEntry) (phrases : List Phrase)
    (cpx : Complexity) (translation : Option String) : Sentence :=
  { id := "sentence_" ++ toString idx,
    originalText := s.text,
    translatedText :=
      match translation with
      | some t => if t = "" then s.text else t
      | none => s.text,
    startTime := s.start,
    duration := s.duration,
    phrases := phrases,
    complexity := cpx,
    wordCount := (splitOnSpace s.text).length,
    characterCount := s.text.length,
    hasIdioms := phrases.any (fun p => p.type == "idiom") }

/-- The per-sentence `catch` fallback of `processSentences` (also the sentence
shape of `fallbackProcessing`): untranslated, no phrases, complexity
`{level: 'A2', complexity_score: 3}`. -/
def fallbackSentence (idx : Nat) (s : TimedEntry) : Sentence :=
  { id := "sentence_" ++ toString idx,
    originalText := s.text,
    translatedText := s.text,
    startTime := s.start,
    duration := s.duration,
    phrases := [],
    complexity := { level := "A2", complexity_score := 3, grammar_points := [],
                    vocabulary_level := "", learning_tips := [] },
    wordCount := (splitOnSpace s.text).length,
    characterCount := s.text.length,
    hasIdioms := false }

/-- `TranscriptProcessor.processSentences(sentences, language)`: for each
sentence the three sub-calls run (phrase extraction, complexity analysis and —
only when `language != 'en'` — translation; the scripted responses are
consumed in that order); if any of them rejects, the per-sentence fallback
sentence is pushed instead.  This function never throws. -/
def processSentences (lang : String) : List TimedEntry → Nat → PState → List Sentence × PState
  | [], _, st => ([], st)
  | s :: rest, idx, st =>
    let pr := extractPhrases s.text st
    let cx := analyzeComplexity s.text pr.2
    let tr : Option (Except Unit String) × PState :=
      if lang = "en" then (none, cx.2)
      else (let t := translateText cx.2; (some t.1, t.2))
    let sent : Sentence :=
      match pr.1, cx.1, tr.1 with
      | Except.ok phrases, Except.ok cpx, none => mkProcessedSentence idx s phrases cpx none
      | Except.ok phrases, Except.ok cpx, some (Except.ok t) =>
        mkProcessedSentence idx s phrases cpx (some t)
      | _, _, _ => fallbackSentence idx s
    let restRes := processSentences lang rest (idx + 1) tr.2
    (sent :: restRes.1, restRes.2)

/-- `TranscriptProcessor.mostFrequent(array)`: `reduce` with initial `null`,
keeping the element with the larger occurrence count (ties keep the earlier
accumulator). -/
def mostFrequent (l : List String) : Option String :=
  l.foldl
    (fun a b =>
      match a with
      | none => if l.count b ≤ 0 then none else some b
      | some x => if l.count b ≤ l.count x then some x else some b)
    none

/-- One `distribution[level]++` step: present keys are incremented (`none`,
i.e. `NaN`, stays `NaN`); an absent key is created with value `NaN`. -/
def bumpLevel : List (String × Option Nat) → String → List (String × Option Nat)
  | [], l => [(l, none)]
  | (k, v) :: rest, l =>
    if k = l then (k, v.map (· + 1)) :: rest else (k, v) :: bumpLevel rest l

/-- The initial `{A1: 0, ..., C2: 0}` record. -/
def initDistribution : List (String × Option Nat) :=
  [("A1", some 0), ("A2", some 0), ("B1", some 0),
   ("B2", some 0), ("C1", some 0), ("C2", some 0)]

/-- `TranscriptProcessor.calculateDifficultyDistribution(levels)`. -/
def calculateDifficultyDistribution (levels : List String) : List (String × Option Nat) :=
  levels.foldl bumpLevel initDistribution

/-- One `acc[phrase.type] = (acc[phrase.type] || 0) + 1` step. -/
def bumpType : List (String × Nat) → String → List (String × Nat)
  | [], t => [(t, 1)]
  | (k, v) :: rest, t =>
    if k = t then (k, v + 1) :: rest else (k, v) :: bumpType rest t

/-- `phraseTypes.x` lookup with JavaScript `undefined > n` semantics folded in
(an absent key counts as 0). -/
def lookupCount (l : List (String × Nat)) (k : String) : Nat :=
  match assocLookup l k with
  | some v => v
  | none => 0

/-- `TranscriptProcessor.getRecommendedFocus(phraseTypes, difficultyLevel)`. -/
def getRecommendedFocus (phraseTypes : List (String × Nat)) (difficultyLevel : Option String) :
    List String :=
  let focuses :=
    (if 5 < lookupCount phraseTypes "idiom" then ["Idioms and expressions"] else []) ++
    (if 3 < lookupCount phraseTypes "phrasal_verb" then ["Phrasal verbs"] else []) ++
    (if difficultyLevel = some "A1" ∨ difficultyLevel = some "A2"
     then ["Basic sentence structures"] else []) ++
    (if difficultyLevel = some "B1" ∨ difficultyLevel = some "B2"
     then ["Complex grammar patterns"] else []) ++
    (if difficultyLevel = some "C1" ∨ difficultyLevel = some "C2"
     then ["Advanced vocabulary and nuance"] else [])
  if focuses = [] then ["General vocabulary and grammar"] else focuses

/-- `TranscriptProcessor.calculateLearningTime(sentenceCount, phraseCount)`:
`Math.round((2 per sentence + 1 per phrase) / 60)` hours. -/
def calculateLearningTime (sentenceCount phraseCount : Nat) : ℤ :=
  jsRound (((sentenceCount * 2 + phraseCount * 1 : Nat) : ℚ) / 60)

/-- `TranscriptProcessor.generateLearningInsights(sentences)`. -/
def generateLearningInsights (sentences : List Sentence) : Insights :=
  let totalWords := sentences.foldl (fun sum s => sum + s.wordCount) 0
  let totalPhrases := sentences.foldl (fun sum s => sum + s.phrases.length) 0
  let difficultyLevels := sentences.map (fun s => s.complexity.level)
  let mostCommonLevel := mostFrequent difficultyLevels
  let allPhrases := sentences.foldl (fun acc s => acc ++ s.phrases) []
  let phraseTypes := allPhrases.foldl (fun acc p => bumpType acc p.type) []
  { totalSentences := sentences.length,
    totalWords := totalWords,
    totalPhrases := totalPhrases,
    averageSentenceLength :=
      if sentences.length = 0 then none
      else some (jsRound ((totalWords : ℚ) / (sentences.length : ℚ))),
    difficultyDistribution := calculateDifficultyDistribution difficultyLevels,
    mostCommonDifficulty := mostCommonLevel,
    phraseTypeBreakdown := phraseTypes,
    recommendedFocus := getRecommendedFocus phraseTypes mostCommonLevel,
    estimatedLearningTime := calculateLearningTime sentences.length totalPhrases }

/-- `TranscriptProcessor.fallbackProcessing(transcriptEntries, videoId,
language)`: the whole-pipeline passthrough artifact.  Note it is NOT written
to the cache. -/
def fallbackProcessing (entries : List TimedEntry) (vid lang : String) (st : PState) :
    LearningArtifact × PState :=
  let sentences := mapWithIndex fallbackSentence 0 entries
  let n := sentences.length
  ({ videoId := vid,
     language := lang,
     originalEntryCount := entries.length,
     processedSentenceCount := n,
     sentences := sentences,
     insights :=
       { totalSentences := n,
         totalWords := sentences.foldl (fun sum s => sum + s.wordCount) 0,
         totalPhrases := 0,
         averageSentenceLength := some 0,
         difficultyDistribution :=
           [("A1", some 0), ("A2", some n), ("B1", some 0),
            ("B2", some 0), ("C1", some 0), ("C2", some 0)],
         mostCommonDifficulty := some "A2",
         phraseTypeBreakdown := [],
         recommendedFocus := ["Basic vocabulary and sentence structure"],
         estimatedLearningTime := jsRound (((n * 2 : Nat) : ℚ) / 60) },
     processedAt := st.time },
   { st with time := st.time + 1 })

/-- The cache key `transcript_${videoId}_${language}`. -/
def cacheKey (vid lang : String) : String := "transcript_" ++ vid ++ "_" ++ lang

/-- `TranscriptProcessor.processTranscript(transcriptEntries, videoId,
language)`: a cache hit returns the stored artifact and touches nothing;
otherwise the pipeline runs (fix → split → per-sentence analysis → insights),
any rejection of the fix or split stage degrades to `fallbackProcessing`
(which does not cache), and a successful result is cached before returning. -/
def processTranscript (entries : List TimedEntry) (vid lang : String) (st : PState) :
    LearningArtifact × PState :=
  match assocLookup st.cache (cacheKey vid lang) with
  | some a => (a, st)
  | none =>
    let fx := fixTranscript st
    match fx.1 with
    | Except.error _ => fallbackProcessing entries vid lang fx.2
    | Except.ok _ =>
      let sp := splitIntoSentences entries fx.2
      match sp.1 with
      | Except.error _ => fallbackProcessing entries vid lang sp.2
      | Except.ok SplitOutcome.notArr => fallbackProcessing entries vid lang sp.2
      | Except.ok (SplitOutcome.sents sentences) =>
        let ps := processSentences lang sentences 0 sp.2
        let result : LearningArtifact :=
          { videoId := vid,
            language := lang,
            originalEntryCount := entries.length,
            processedSentenceCount := ps.1.length,
            sentences := ps.1,
            insights := generateLearningInsights ps.1,
            processedAt := ps.2.time }
        (result,
         { ps.2 with
             time := ps.2.time + 1,
             cache := assocSet ps.2.cache (cacheKey vid lang) result })

/-- The `{sentenceId, originalText, translatedText, phrases, complexity,
learningTips}` record of `getPhraseBreakdown`. -/
structure PhraseBreakdown where
  sentenceId : String
  originalText : String
  translatedText : String
  phrases : List Phrase
  complexity : Complexity
  learningTips : List String
deriving DecidableEq

/-- The rule-based tips of `TranscriptProcessor.generateSentenceTips`. -/
def ruleTips (s : Sentence) (phrases : List Phrase) : List String :=
  (if s.complexity.level = "C1" ∨ s.complexity.level = "C2"
   then ["This is an advanced sentence. Focus on nuanced meanings and advanced vocabulary."]
   else []) ++
  (if phrases.any (fun p => p.type == "idiom")
   then ["Practice the idioms in different contexts to master their usage."]
   else []) ++
  (if 20 < s.wordCount
   then ["Break down this long sentence into smaller parts for better understanding."]
   else []) ++
  (if phrases.any (fun p => p.difficulty == "hard")
   then ["The difficult phrases in this sentence are worth memorizing for advanced fluency."]
   else [])

/-- `TranscriptProcessor.generateSentenceTips(sentence, phrases)`: rule tips,
then AI tips (split on newlines, blank lines dropped) or two fixed fallback
tips when the inference call fails; at most 3 tips. -/
def generateSentenceTips (s : Sentence) (phrases : List Phrase) (st : PState) :
    List String × PState :=
  let mr := makeRequestOR st
  ((ruleTips s phrases ++
      (match mr.1 with
       | Except.ok v => (jsSplit (contentString v) (· = '\n')).filter (fun tip => jsTrim tip ≠ "")
       | Except.error _ =>
         ["Listen to the sentence multiple times for better pronunciation.",
          "Try to use the new vocabulary in your own sentences."])).take 3,
   mr.2)

/-- `TranscriptProcessor.fallbackPhraseBreakdown(sentence)`. -/
def fallbackPhraseBreakdown (s : Sentence) : PhraseBreakdown :=
  { sentenceId := s.id,
    originalText := s.originalText,
    translatedText := s.translatedText,
    phrases := s.phrases,
    complexity := s.complexity,
    learningTips :=
      ["Practice reading this sentence aloud for better pronunciation.",
       "Try to memorize any new vocabulary words from this sentence.",
       "Use this sentence as a template to create your own sentences."] }

/-- `TranscriptProcessor.getPhraseBreakdown(sentenceId, sentences)`: `null`
when no sentence carries the id (before any inference call); otherwise a
detailed breakdown, degrading to `fallbackPhraseBreakdown` if the phrase
re-extraction rejects. -/
def getPhraseBreakdown (sentenceId : String) (sentences : List Sentence) (st : PState) :
    Option PhraseBreakdown × PState :=
  match sentences.find? (fun s => s.id == sentenceId) with
  | none => (none, st)
  | some s =>
    let pr := extractPhrases s.originalText st
    match pr.1 with
    | Except.error _ => (some (fallbackPhraseBreakdown s), pr.2)
    | Except.ok detailed =>
      let tp := generateSentenceTips s detailed pr.2
      (some { sentenceId := sentenceId,
              originalText := s.originalText,
              translatedText := s.translatedText,
              phrases := detailed,
              complexity := s.complexity,
              learningTips := tp.1 },
       tp.2)

/-! ## `AIService.makeRequest` (frontend retry wrapper) -/

/-- What one `fetch` attempt does: resolve with a response of some HTTP
status, or reject with an error. -/
inductive FetchOutcome where
  | resp (status : Nat)
  | reject (e : String)
deriving DecidableEq

/-- How one `makeRequest` call ends: the response object is returned, an error
is thrown, or the loop falls through and the function returns `undefined`. -/
inductive ReqOutcome where
  | returned (status : Nat)
  | threw (e : String)
  | undef
deriving DecidableEq

/-- Observable trace of one `makeRequest` call: its outcome, the `delay`
waits performed (in ms, in order), and the number of fetch attempts made. -/
structure ReqTrace where
  outcome : ReqOutcome
  delays : List Nat
  attempts : Nat
deriving DecidableEq

/-- The `for (attempt = 1; attempt <= maxRetries; attempt++)` loop of
`AIService.makeRequest`, with `fetchAt n` the behaviour of the `n`-th fetch:
a 429 response waits `attempt * 2000` ms and retries (consuming the attempt);
any other response is returned; a rejection rethrows at the last attempt and
otherwise waits `1000 * attempt` ms and retries.  The fuel is the number of
loop iterations left; falling out of the loop returns `undefined`. -/
def makeRequestGo (fetchAt : Nat → FetchOutcome) : Nat → Nat → ReqTrace
  | 0, _ => { outcome := ReqOutcome.undef, delays := [], attempts := 0 }
  | fuel + 1, attempt =>
    match fetchAt attempt with
    | FetchOutcome.resp status =>
      if status = 429 then
        let rest := makeRequestGo fetchAt fuel (attempt + 1)
        { outcome := rest.outcome, delays := attempt * 2000 :: rest.delays,
          attempts := rest.attempts + 1 }
      else { outcome := ReqOutcome.returned status, delays := [], attempts := 1 }
    | FetchOutcome.reject e =>
      if attempt = 3 then { outcome := ReqOutcome.threw e, delays := [], attempts := 1 }
      else
        let rest := makeRequestGo fetchAt fuel (attempt + 1)
        { outcome := rest.outcome, delays := 1000 * attempt :: rest.delays,
          attempts := rest.attempts + 1 }

/-- `AIService.makeRequest(url, options)`: `maxRetries = 3`, attempts start
at 1. -/
def makeRequest (fetchAt : Nat → FetchOutcome) : ReqTrace :=
  makeRequestGo fetchAt 3 1

/-! ## `AIService.batchProcess` / `processQueue` (batch queue) -/

/-- `Promise.allSettled` element: a fulfilled value or the captured reason of
a rejection. -/
inductive Settled (ε α : Type) where
  | fulfilled (v : α)
  | rejected (e : ε)
deriving DecidableEq

/-- Settle one request through `executeSingleRequest`. -/
def settleOf (exec : ρ → Except ε α) (r : ρ) : Settled ε α :=
  match exec r with
  | Except.ok v => Settled.fulfilled v
  | Except.error e => Settled.rejected e

/-- Observable events of one queue job: a chunk of settled outcomes (all of
its requests run concurrently and are awaited together), or a rate-limiting
`delay` wait. -/
inductive BatchEvent (ε α : Type) where
  | chunk (outcomes : List (Settled ε α))
  | wait (ms : Nat)
deriving DecidableEq

/-- The chunk loop of `AIService.processQueue` for one dequeued job:
`batchSize = 3` slices taken in order, `Promise.allSettled` per slice, and a
1000 ms delay after every slice that is followed by further requests. -/
def processQueue (exec : ρ → Except ε α) : List ρ → List (BatchEvent ε α)
  | [] => []
  | [a] => [BatchEvent.chunk [settleOf exec a]]
  | [a, b] => [BatchEvent.chunk [settleOf exec a, settleOf exec b]]
  | a :: b :: c :: rest =>
    BatchEvent.chunk [settleOf exec a, settleOf exec b, settleOf exec c] ::
      (match rest with
       | [] => []
       | _ :: _ => BatchEvent.wait 1000 :: processQueue exec rest)

/-- The flattened outcome list a job's `submit` promise resolves with
(`results.push(...batchResults)` across chunks). -/
def queueOutcomes : List (BatchEvent ε α) → List (Settled ε α)
  | [] => []
  | BatchEvent.chunk os :: r => os ++ queueOutcomes r
  | BatchEvent.wait _ :: r => queueOutcomes r

/-- The sizes of the chunks of a job trace, in order. -/
def chunkSizes : List (BatchEvent ε α) → List Nat
  | [] => []
  | BatchEvent.chunk os :: r => os.length :: chunkSizes r
  | BatchEvent.wait _ :: r => chunkSizes r

/-- The waits of a job trace, in order. -/
def waitEvents : List (BatchEvent ε α) → List Nat
  | [] => []
  | BatchEvent.chunk _ :: r => waitEvents r
  | BatchEvent.wait ms :: r => ms :: waitEvents r

/-- How a list of length `n` is cut into chunks of 3: the expected chunk-size
pattern (`7 ↦ [3, 3, 1]`). -/
def chunkPattern : Nat → List Nat
  | 0 => []
  | 1 => [1]
  | 2 => [2]
  | n + 3 => 3 :: chunkPattern n


/-! ## Concrete fixtures and specification-side measures -/

/-- A cue file whose single cue has its end before its start. -/
def vttCounterexampleContent : String :=
  "WEBVTT\n\n00:00:05.000 --> 00:00:01.000\nHello"

def successOracle : List AIResp :=
  [AIResp.reply (AIVal.text "fixed"),
   AIResp.reply (AIVal.jsonArr [⟨"Hello world.", 0, 2⟩]),
   AIResp.reply (AIVal.jsonPhr []),
   AIResp.reply (AIVal.jsonCpx ⟨"A2", 3, [], "basic", []⟩)]

def demoState : PState := { cache := [], oracle := successOracle, calls := 0, time := 0 }

def demoEntries : List TimedEntry := [⟨"Hello world.", 0, 2⟩]

def failingState : PState :=
  { cache := [], oracle := [AIResp.failure, AIResp.failure], calls := 0, time := 0 }

def cefrLevels : List String := ["A1", "A2", "B1", "B2", "C1", "C2"]

/-- Every distribution value is an actual number (no `NaN`); values are
naturals, hence non-negative. -/
def allSomeVals (d : List (String × Option Nat)) : Prop := ∀ p ∈ d, (p.2).isSome

instance allSomeValsDecidable (d : List (String × Option Nat)) : Decidable (allSomeVals d) :=
  List.decidableBAll _ d

def keysOf (d : List (String × Option Nat)) : List String := d.map Prod.fst

/-- `NaN`-absorbing addition of two counts. -/
def addNaN : Option Nat → Option Nat → Option Nat
  | some a, some b => some (a + b)
  | _, _ => none

/-- JavaScript-style sum over the distribution's values (`NaN` absorbs). -/
def sumVals : List (String × Option Nat) → Option Nat
  | [] => some 0
  | p :: rest => addNaN p.2 (sumVals rest)

def weirdOracle : List AIResp :=
  [AIResp.reply (AIVal.text "ok"),
   AIResp.reply (AIVal.jsonArr [⟨"Hello", 0, 2⟩]),
   AIResp.reply (AIVal.jsonPhr []),
   AIResp.reply (AIVal.jsonCpx ⟨"X9", 5, [], "basic", []⟩)]

def weirdState : PState := { cache := [], oracle := weirdOracle, calls := 0, time := 0 }

/-! ## Helper lemmas -/

/-- A non-empty request list produces at least one chunk. -/
theorem chunkPattern_len_pos : ∀ n : Nat, n ≠ 0 → 0 < (chunkPattern n).length
  | 0, h => absurd rfl h
  | 1, _ => by simp [chunkPattern]
  | 2, _ => by simp [chunkPattern]
  | _ + 3, _ => by simp [chunkPattern]

/-- The retry loop performs at most `fuel` fetch attempts. -/
theorem makeRequestGo_attempts_le (fetchAt : Nat → FetchOutcome) :
    ∀ fuel attempt, (makeRequestGo fetchAt fuel attempt).attempts ≤ fuel := by
  intro fuel
  induction fuel with
  | zero => intro attempt; simp [makeRequestGo]
  | succ n ih =>
    intro attempt
    cases hf : fetchAt attempt with
    | resp status =>
      by_cases h : status = 429
      · subst h
        simp only [makeRequestGo, hf, eq_self_iff_true, if_true]
        have := ih (attempt + 1)
        omega
      · simp [makeRequestGo, hf, h]
    | reject e =>
      by_cases h : attempt = 3
      · subst h
        simp [makeRequestGo, hf]
      · simp only [makeRequestGo, hf, if_neg h]
        have := ih (attempt + 1)
        omega

/-! ## Claim C9 — batch queue completeness and chunking -/

/-- C9: for every submitted list of N requests the batch queue produces
exactly N outcomes in request order — each the request's success value or its
captured failure marker, so a single failure never drops or cancels its
siblings — processed in consecutive chunks of size 3 (the chunk sizes follow
`chunkPattern`, e.g. `[3, 3, 1]` for 7 requests), with one 1000 ms delay
between consecutive chunks. -/
theorem processQueue_complete {ρ ε α : Type} (exec : ρ → Except ε α) (reqs : List ρ) :
    queueOutcomes (processQueue exec reqs) = reqs.map (settleOf exec) ∧
    chunkSizes (processQueue exec reqs) = chunkPattern reqs.length ∧
    waitEvents (processQueue exec reqs) =
      List.replicate ((chunkPattern reqs.length).length - 1) 1000 := by
  induction reqs using processQueue.induct exec with
  | case1 => simp [processQueue, queueOutcomes, chunkSizes, waitEvents, chunkPattern]
  | case2 a => simp [processQueue, queueOutcomes, chunkSizes, waitEvents, chunkPattern]
  | case3 a b => simp [processQueue, queueOutcomes, chunkSizes, waitEvents, chunkPattern]
  | case4 a b c rest ih =>
    cases rest with
    | nil => simp [processQueue, queueOutcomes, chunkSizes, waitEvents, chunkPattern]
    | cons d r =>
      obtain ⟨ih1, ih2, ih3⟩ := ih
      have hpat : chunkPattern (a :: b :: c :: d :: r).length =
          3 :: chunkPattern (d :: r).length := rfl
      have hpos : 0 < (chunkPattern (d :: r).length).length :=
        chunkPattern_len_pos _ (by simp)
      refine ⟨?_, ?_, ?_⟩
      · simp [processQueue, queueOutcomes, ih1]
      · have hstep : chunkSizes (processQueue exec (a :: b :: c :: d :: r)) =
            3 :: chunkSizes (processQueue exec (d :: r)) := rfl
        rw [hstep, ih2, hpat]
      · have hstep : waitEvents (processQueue exec (a :: b :: c :: d :: r)) =
            1000 :: waitEvents (processQueue exec (d :: r)) := rfl
        rw [hstep, ih3, hpat]
        have h1 : (3 :: chunkPattern (d :: r).length).length - 1 =
            (chunkPattern (d :: r).length).length := by simp
        rw [h1, ← List.replicate_succ]
        congr 1
        omega

/-! ## Claim C2 — inference request wrapper retry policy -/

/-- C2 (amended): the frontend request wrapper makes at most 3 fetch attempts.
A 429 response waits `attempt × 2000` ms and retries, consuming an attempt
slot; when all three attempts yield 429 the call returns `undefined` — it does
NOT raise.  A rejected fetch waits `1000 × attempt` ms and retries, except on
the third attempt where the last underlying error itself is rethrown.  A
non-429 response is returned immediately. -/
theorem makeRequest_retry_policy (fetchAt : Nat → FetchOutcome) :
    (makeRequest fetchAt).attempts ≤ 3 ∧
    (fetchAt 1 = FetchOutcome.resp 429 → fetchAt 2 = FetchOutcome.resp 429 →
      fetchAt 3 = FetchOutcome.resp 429 →
      makeRequest fetchAt =
        { outcome := ReqOutcome.undef, delays := [2000, 4000, 6000], attempts := 3 }) ∧
    (∀ e1 e2 e3, fetchAt 1 = FetchOutcome.reject e1 → fetchAt 2 = FetchOutcome.reject e2 →
      fetchAt 3 = FetchOutcome.reject e3 →
      makeRequest fetchAt =
        { outcome := ReqOutcome.threw e3, delays := [1000, 2000], attempts := 3 }) ∧
    (∀ status, status ≠ 429 → fetchAt 1 = FetchOutcome.resp status →
      makeRequest fetchAt =
        { outcome := ReqOutcome.returned status, delays := [], attempts := 1 }) := by
  refine ⟨makeRequestGo_attempts_le fetchAt 3 1, ?_, ?_, ?_⟩
  · intro h1 h2 h3
    simp [makeRequest, makeRequestGo, h1, h2, h3]
  · intro e1 e2 e3 h1 h2 h3
    simp [makeRequest, makeRequestGo, h1, h2, h3]
  · intro status hs h1
    simp [makeRequest, makeRequestGo, h1, hs]

/-- C2 witness: three rejected fetches rethrow the last error after waiting
1000 ms and 2000 ms. -/
theorem makeRequest_retry_policy_witness :
    makeRequest (fun _ => FetchOutcome.reject "boom") =
      { outcome := ReqOutcome.threw "boom", delays := [1000, 2000], attempts := 3 } :=
  (makeRequest_retry_policy (fun _ => FetchOutcome.reject "boom")).2.2.1
    "boom" "boom" "boom" rfl rfl rfl

/-- C2 counterexample: when every attempt yields a 429 response the wrapper
returns `undefined` after the waits 2000/4000/6000 ms — exhaustion by 429s
raises no error at all, contradicting the claim that exhausting all attempts
always raises a processing-failure error. -/
theorem makeRequest_429_counterexample :
    (makeRequest (fun _ => FetchOutcome.resp 429)).outcome = ReqOutcome.undef ∧
    (makeRequest (fun _ => FetchOutcome.resp 429)).delays = [2000, 4000, 6000] ∧
    ∀ e, (makeRequest (fun _ => FetchOutcome.resp 429)).outcome ≠ ReqOutcome.threw e := by
  refine ⟨rfl, rfl, ?_⟩
  intro e h
  rw [show (makeRequest fun _ => FetchOutcome.resp 429).outcome = ReqOutcome.undef from rfl] at h
  simp at h

/-! ## Claim C4 -/

/-- C4 (amended): the complexity fallback's three outputs use three different
conditions: `level` is B1 iff the word count exceeds 15 or some run of at
least 8 word characters occurs (else A2); `score` is 6 iff the word count
exceeds 15 (else 3, even when a long word occurs); `vocabularyLevel` is
`intermediate` iff a long word occurs (else `basic`, even when the word count
exceeds 15). -/
theorem fallbackComplexity_conditions (s : String) :
    ((15 < (splitOnSpace s).length ∨ hasComplexWords s = true) →
      (fallbackComplexityAnalysis s).level = "B1") ∧
    (¬(15 < (splitOnSpace s).length ∨ hasComplexWords s = true) →
      (fallbackComplexityAnalysis s).level = "A2") ∧
    (15 < (splitOnSpace s).length → (fallbackComplexityAnalysis s).complexity_score = 6) ∧
    ((splitOnSpace s).length ≤ 15 → (fallbackComplexityAnalysis s).complexity_score = 3) ∧
    (hasComplexWords s = true → (fallbackComplexityAnalysis s).vocabulary_level = "intermediate") ∧
    (hasComplexWords s = false → (fallbackComplexityAnalysis s).vocabulary_level = "basic") := by
  refine ⟨?_, ?_, ?_, ?_, ?_, ?_⟩ <;> intro h
  · simp [fallbackComplexityAnalysis, h]
  · simp [fallbackComplexityAnalysis, h]
  · simp [fallbackComplexityAnalysis, h]
  · simp [fallbackComplexityAnalysis, Nat.not_lt.mpr h]
  · simp [fallbackComplexityAnalysis, h]
  · simp [fallbackComplexityAnalysis, h]

/-- C4 witness: `"wonderful"` contains a long word, so the vocabulary level is
`intermediate`. -/
theorem fallbackComplexity_witness :
    (fallbackComplexityAnalysis "wonderful").vocabulary_level = "intermediate" :=
  (fallbackComplexity_conditions "wonderful").2.2.2.2.1 (by decide)

/-- C4 counterexample: `"wonderful"` satisfies the claimed condition (a word
of ≥ 8 characters) and gets level B1, but its score is 3, not the claimed 6;
conversely a 16-word sentence of short words gets score 6 but vocabulary level
`basic`, not the claimed `intermediate`. -/
theorem fallbackComplexity_counterexample :
    hasComplexWords "wonderful" = true ∧
    (fallbackComplexityAnalysis "wonderful").level = "B1" ∧
    (fallbackComplexityAnalysis "wonderful").complexity_score = 3 ∧
    (3 : ℚ) ≠ 6 ∧
    15 < (splitOnSpace "a b c d e f g h i j k l m n o p").length ∧
    (fallbackComplexityAnalysis "a b c d e f g h i j k l m n o p").vocabulary_level = "basic" := by
  refine ⟨by decide, rfl, rfl, by norm_num, by decide, rfl⟩

/-! ## Claim C10 -/

/-- C10: when no sentence in the supplied list carries the requested id,
`getPhraseBreakdown` returns `null` with the state untouched — no inference
call is made, nothing is thrown, and no breakdown record is produced. -/
theorem getPhraseBreakdown_unknown_id (sentenceId : String) (sentences : List Sentence)
    (st : PState) (h : ∀ s ∈ sentences, s.id ≠ sentenceId) :
    getPhraseBreakdown sentenceId sentences st = (none, st) := by
  have hf : sentences.find? (fun s => s.id == sentenceId) = none := by
    rw [List.find?_eq_none]
    intro s hs
    simp [h s hs]
  simp [getPhraseBreakdown, hf]

/-- C10 witness: an id matching no sentence yields `null` and leaves the
scripted responses and call counter untouched. -/
theorem getPhraseBreakdown_unknown_id_witness :
    getPhraseBreakdown "sentence_7" [fallbackSentence 0 ⟨"Hello there", 0, 2⟩]
      { cache := [], oracle := [AIResp.reply (AIVal.jsonPhr [])], calls := 0, time := 0 } =
    (none, { cache := [], oracle := [AIResp.reply (AIVal.jsonPhr [])], calls := 0, time := 0 }) :=
  getPhraseBreakdown_unknown_id "sentence_7" [fallbackSentence 0 ⟨"Hello there", 0, 2⟩] _
    (by decide)

/-! ## Claim C1 -/

/-- A successful literal strip decomposes the list. -/
theorem stripLit_eq : ∀ (lit l r : List Char), stripLit lit l = some r → l = lit ++ r := by
  intro lit
  induction lit with
  | nil => intro l r h; simpa [stripLit] using h
  | cons p ps ih =>
    intro l r h
    cases l with
    | nil => simp [stripLit] at h
    | cons c cs =>
      by_cases hc : c = p
      · subst hc
        simp only [stripLit, if_pos rfl] at h
        simpa using ih cs r h
      · simp [stripLit, hc] at h

/-- Every position-matcher of `extractVideoId` only succeeds on a region
containing a dot (all four URL patterns require a literal containing `.`). -/
theorem patterns_need_dot :
    (∀ l, (p1At l).isSome → '.' ∈ l) ∧ (∀ l, (p2At l).isSome → '.' ∈ l) ∧
    (∀ l, (p3At l).isSome → '.' ∈ l) ∧ (∀ l, (p4At l).isSome → '.' ∈ l) := by
  have hmem : ∀ (lit l : List Char), '.' ∈ lit →
      ((stripLit lit l).bind (takeCapture 11)).isSome → '.' ∈ l := by
    intro lit l hdot h
    cases hs : stripLit lit l with
    | none => simp [hs] at h
    | some r => rw [stripLit_eq lit l r hs]; exact List.mem_append_left _ hdot
  refine ⟨?_, fun l => hmem _ l (by decide), fun l => hmem _ l (by decide),
      fun l => hmem _ l (by decide)⟩
  intro l h
  unfold p1At at h
  cases hs : stripLit "youtube.com/".data l with
  | none => rw [hs] at h; exact hmem "youtu.be/".data l (by decide) h
  | some rest =>
    rw [stripLit_eq _ l rest hs]
    exact List.mem_append_left _ (by decide)

/-- If a scan succeeds, the scanned list satisfies the matcher's invariant. -/
theorem scanWith_has_dot (f : List Char → Option (List Char))
    (hf : ∀ t, (f t).isSome → '.' ∈ t) :
    ∀ l, (scanWith f l).isSome → '.' ∈ l := by
  intro l
  induction l with
  | nil => intro h; exact hf [] (by simpa [scanWith] using h)
  | cons c r ih =>
    intro h
    cases hfc : f (c :: r) with
    | some cap => exact hf (c :: r) (by simp [hfc])
    | none =>
      simp only [scanWith, hfc] at h
      exact List.mem_cons_of_mem c (ih h)

/-- C1 (amended): `extractVideoId` extracts the 11-character id from standard
long-form, short-form and embed URLs and returns `null` on non-matching
inputs; but a bare 11-character id — in fact any input without a `.`
character, which every URL pattern requires — also returns `null`, not the id. -/
theorem extractVideoId_shapes :
    extractVideoId "https://www.youtube.com/watch?v=dQw4w9WgXcQ" = some "dQw4w9WgXcQ" ∧
    extractVideoId "https://youtu.be/dQw4w9WgXcQ" = some "dQw4w9WgXcQ" ∧
    extractVideoId "https://www.youtube.com/embed/dQw4w9WgXcQ" = some "dQw4w9WgXcQ" ∧
    extractVideoId "not a url" = none ∧
    (∀ id : String, (∀ c ∈ id.data, c ≠ '.') → extractVideoId id = none) := by
  refine ⟨by decide, by decide, by decide, by decide, ?_⟩
  intro id h
  have hnone : ∀ f, (∀ t, (f t).isSome → '.' ∈ t) → scanWith f id.data = none := by
    intro f hf
    cases hq : scanWith f id.data with
    | none => rfl
    | some c =>
      exact absurd rfl (h '.' (scanWith_has_dot f hf id.data (by simp [hq])))
  by_cases hid : id = ""
  · simp [extractVideoId, hid]
  · simp [extractVideoId, hid, hnone p1At patterns_need_dot.1,
      hnone p2At patterns_need_dot.2.1, hnone p3At patterns_need_dot.2.2.1,
      hnone p4At patterns_need_dot.2.2.2]

/-- C1 witness: the bare 11-character id of the specification's scenario
contains no dot, hence `extractVideoId` returns `null` on it. -/
theorem extractVideoId_shapes_witness : extractVideoId "dQw4w9WgXcQ" = none :=
  extractVideoId_shapes.2.2.2.2 "dQw4w9WgXcQ" (by decide)

/-- C1 counterexample: `"dQw4w9WgXcQ"` is a bare 11-character video id, yet
`extractVideoId` returns `null` for it instead of the id itself. -/
theorem extractVideoId_bare_id_counterexample :
    "dQw4w9WgXcQ".length = 11 ∧ extractVideoId "dQw4w9WgXcQ" = none := by
  exact ⟨rfl, by decide⟩

/-! ## Claim C3 -/

theorem sentenceRuns_ne_nil (p : TimedEntry → Bool) :
    ∀ l : List TimedEntry, l ≠ [] → sentenceRuns p l ≠ [] := by
  intro l hl
  cases l with
  | nil => exact absurd rfl hl
  | cons e rest =>
    by_cases h : p e ∨ rest = []
    · simp [sentenceRuns, h]
    · simp only [sentenceRuns, if_neg h]
      cases sentenceRuns p rest with
      | nil => simp
      | cons g gs => simp

theorem sentenceRuns_mem_ne_nil (p : TimedEntry → Bool) :
    ∀ l : List TimedEntry, ∀ g ∈ sentenceRuns p l, g ≠ [] := by
  intro l
  induction l with
  | nil => intro g hg; simp [sentenceRuns] at hg
  | cons e rest ih =>
    intro g hg
    by_cases h : p e ∨ rest = []
    · simp only [sentenceRuns, if_pos h] at hg
      rcases List.mem_cons.mp hg with h1 | h1
      · subst h1; simp
      · exact ih g h1
    · simp only [sentenceRuns, if_neg h] at hg
      cases hr : sentenceRuns p rest with
      | nil => rw [hr] at hg; simp at hg; subst hg; simp
      | cons g0 gs =>
        rw [hr] at hg
        rcases List.mem_cons.mp hg with h1 | h1
        · subst h1; simp
        · exact ih g (hr ▸ List.mem_cons_of_mem g0 h1)

theorem runStop_irrel (g : List TimedEntry) (hg : g ≠ []) (a b : ℚ) :
    runStop a g = runStop b g := by
  cases g with
  | nil => exact absurd rfl hg
  | cons e r =>
    simp [runStop]

theorem fallbackSplitGo_eq_runs (p : TimedEntry → Bool) (hp : p = fun e => sentenceEnd e.text) :
    ∀ (l : List TimedEntry) (cur : String) (curStart : ℚ),
      fallbackSplitGo cur curStart l = runsToSentences cur curStart (sentenceRuns p l) := by
  intro l
  induction l with
  | nil => intro cur curStart; simp [fallbackSplitGo, sentenceRuns, runsToSentences]
  | cons e rest ih =>
    intro cur curStart
    by_cases h : sentenceEnd e.text ∨ rest = []
    · have hcond : p e ∨ rest = [] := by rw [hp]; exact h
      simp only [fallbackSplitGo, if_pos h, sentenceRuns, if_pos hcond, runsToSentences]
      have htext : runText cur [e] = cur ++ " " ++ e.text := by simp [runText]
      have hstop : runStop curStart [e] = e.start + e.duration := by simp [runStop]
      rw [htext, hstop, ih "" (e.start + e.duration)]
    · have hcond : ¬(p e ∨ rest = []) := by rw [hp]; exact h
      have hrest : rest ≠ [] := fun hr => h (Or.inr hr)
      simp only [fallbackSplitGo, if_neg h, sentenceRuns, if_neg hcond]
      cases hr : sentenceRuns p rest with
      | nil => exact absurd hr (sentenceRuns_ne_nil p rest hrest)
      | cons g gs =>
        have hgne : g ≠ [] :=
          sentenceRuns_mem_ne_nil p rest g (hr ▸ List.mem_cons_self g gs)
        rw [ih (cur ++ " " ++ e.text) curStart, hr]
        simp only [runsToSentences]
        have htext : runText cur (e :: g) = runText (cur ++ " " ++ e.text) g := by
          simp [runText]
        have hstop : runStop curStart (e :: g) = runStop curStart g := by
          cases g with
          | nil => exact absurd rfl hgne
          | cons f r => simp [runStop]
        rw [htext, hstop]

/-- C3 (amended): the segmentation fallback closes a sentence exactly after an
entry whose text CONTAINS `.`, `!` or `?` anywhere (not only at its end), or
at the final entry; the first sentence starts at the first entry's `start`,
each later sentence starts at the previous closing entry's end
(`start + duration`, not the next entry's own start), and each sentence spans
from its start to its closing entry's end. -/
theorem fallbackSentenceSplit_runs (entries : List TimedEntry) :
    fallbackSentenceSplit entries =
      runsToSentences ""
        (match entries with
         | [] => 0
         | e :: _ => e.start)
        (sentenceRuns (fun e => sentenceEnd e.text) entries) := by
  exact fallbackSplitGo_eq_runs _ rfl entries "" _

/-- C3 counterexample: with entries `"Mr. Smith"` (a dot mid-text, none at the
end) and `"spoke"`, the code emits two sentences — it splits after the first
entry because the terminator occurs anywhere in the text — whereas the claim's
close-only-on-terminal-punctuation rule predicts the single sentence
`"Mr. Smith spoke"`. -/
theorem fallbackSentenceSplit_counterexample :
    (fallbackSentenceSplit [⟨"Mr. Smith", 0, 2⟩, ⟨"spoke", 2, 3⟩]).length = 2 ∧
    (fallbackSentenceSplit [⟨"Mr. Smith", 0, 2⟩, ⟨"spoke", 2, 3⟩]).map
        (fun s => s.text) = ["Mr. Smith", "spoke"] ∧
    ∀ s ∈ fallbackSentenceSplit [⟨"Mr. Smith", 0, 2⟩, ⟨"spoke", 2, 3⟩],
      s.text ≠ "Mr. Smith spoke" := by
  refine ⟨rfl, rfl, ?_⟩
  intro s hs
  have hm : s.text ∈ (fallbackSentenceSplit [⟨"Mr. Smith", 0, 2⟩, ⟨"spoke", 2, 3⟩]).map
      (fun s => s.text) := List.mem_map_of_mem _ hs
  rw [show (fallbackSentenceSplit [⟨"Mr. Smith", 0, 2⟩, ⟨"spoke", 2, 3⟩]).map
      (fun s => s.text) = ["Mr. Smith", "spoke"] from rfl] at hm
  simp only [List.mem_cons, List.not_mem_nil, or_false] at hm
  rcases hm with h | h <;> rw [h] <;> decide

/-! ## Digit-string evaluation helpers -/

theorem digit_bounds (c : Char) (h : c.isDigit = true) : 48 ≤ c.toNat ∧ c.toNat ≤ 57 := by
  simp [Char.isDigit] at h
  exact ⟨h.1, h.2⟩

theorem digit_not_jsSpace (c : Char) (h : c.isDigit = true) : isJsSpace c = false := by
  obtain ⟨h1, h2⟩ := digit_bounds c h
  cases hsp : isJsSpace c
  · rfl
  · exfalso
    simp only [isJsSpace, Bool.or_eq_true, Bool.and_eq_true, decide_eq_true_eq] at hsp
    omega

theorem digit_ne_of (c d : Char) (h : c.isDigit = true) (hd : d.isDigit = false) : c ≠ d :=
  fun he => by rw [he, hd] at h; cases h

theorem takeWhile_all {α : Type} {p : α → Bool} :
    ∀ l : List α, (∀ c ∈ l, p c = true) → l.takeWhile p = l := by
  intro l
  induction l with
  | nil => intro _; rfl
  | cons c r ih =>
    intro h
    simp [List.takeWhile_cons, h c (by simp),
      ih (fun d hd => h d (List.mem_cons_of_mem c hd))]

theorem dropWhile_all {α : Type} {p : α → Bool} :
    ∀ l : List α, (∀ c ∈ l, p c = true) → l.dropWhile p = [] := by
  intro l
  induction l with
  | nil => intro _; rfl
  | cons c r ih =>
    intro h
    simp only [List.dropWhile_cons, h c (by simp)]
    exact ih (fun d hd => h d (List.mem_cons_of_mem c hd))

theorem takeWhile_append_stop {α : Type} {p : α → Bool} :
    ∀ (xs : List α), (∀ c ∈ xs, p c = true) → ∀ (y : α) (ys : List α), p y = false →
      (xs ++ y :: ys).takeWhile p = xs ∧ (xs ++ y :: ys).dropWhile p = y :: ys := by
  intro xs
  induction xs with
  | nil =>
    intro _ y ys hy
    simp [List.takeWhile_cons, List.dropWhile_cons, hy]
  | cons c r ih =>
    intro h y ys hy
    have hc := h c (by simp)
    have hr := ih (fun d hd => h d (List.mem_cons_of_mem c hd)) y ys hy
    refine ⟨?_, ?_⟩ <;>
      simp [List.cons_append, List.takeWhile_cons, List.dropWhile_cons, hc, hr.1, hr.2]

theorem parseIntJS_digits (l : List Char) (h0 : l ≠ []) (hd : ∀ c ∈ l, c.isDigit = true) :
    parseIntJS ⟨l⟩ = some (digitsToNat l) := by
  cases l with
  | nil => exact absurd rfl h0
  | cons c r =>
    have hds : Char.isDigit c = true := hd c (by simp)
    have hdw : (c :: r).dropWhile isJsSpace = c :: r := by
      simp [List.dropWhile_cons, digit_not_jsSpace c hds]
    have htw : (c :: r).takeWhile Char.isDigit = c :: r := takeWhile_all _ hd
    have hm : c ≠ '-' := digit_ne_of c '-' hds (by decide)
    have hp : c ≠ '+' := digit_ne_of c '+' hds (by decide)
    simp only [parseIntJS, String.data]
    rw [hdw]
    simp only [if_neg hm, if_neg hp, htw]
    simp

theorem parseFloatJS_digits (d2 f2 : List Char) (h0 : d2 ≠ [])
    (hd : ∀ c ∈ d2, c.isDigit = true) (hf : ∀ c ∈ f2, c.isDigit = true) :
    parseFloatJS ⟨d2 ++ '.' :: f2⟩ =
      some ((digitsToNat d2 : ℚ) + (digitsToNat f2 : ℚ) / 10 ^ f2.length) := by
  cases d2 with
  | nil => exact absurd rfl h0
  | cons c r =>
    have hds : Char.isDigit c = true := hd c (by simp)
    have hdw : ((c :: r) ++ '.' :: f2).dropWhile isJsSpace = (c :: r) ++ '.' :: f2 := by
      simp [List.dropWhile_cons, digit_not_jsSpace c hds]
    have hsplit := takeWhile_append_stop (c :: r) hd '.' f2 (by decide)
    have hm : c ≠ '-' := digit_ne_of c '-' hds (by decide)
    have hp : c ≠ '+' := digit_ne_of c '+' hds (by decide)
    have hfp : f2.takeWhile Char.isDigit = f2 := takeWhile_all _ hf
    have hfd : f2.dropWhile Char.isDigit = [] := dropWhile_all _ hf
    simp only [parseFloatJS, String.data]
    rw [hdw]
    simp only [List.cons_append, if_neg hm, if_neg hp]
    simp only [← List.cons_append, hsplit.1, hsplit.2]
    simp only [if_pos rfl, hfp, hfd]
    have hne : ¬(c :: r = [] ∧ f2 = []) := fun hh => by cases hh.1
    rw [if_neg hne]
    simp [applyExp, intFracVal]

theorem replaceFirstComma_no_comma :
    ∀ l : List Char, (∀ c ∈ l, c ≠ ',') → replaceFirstComma l = l := by
  intro l
  induction l with
  | nil => intro _; rfl
  | cons c r ih =>
    intro h
    simp only [replaceFirstComma, if_neg (h c (by simp))]
    rw [ih (fun d hd => h d (List.mem_cons_of_mem c hd))]

theorem replaceFirstComma_append (d2 : List Char) (hd : ∀ c ∈ d2, c ≠ ',')
    (sep : Char) (hsep : sep = '.' ∨ sep = ',') (f2 : List Char)
    (hf2 : ∀ c ∈ f2, c ≠ ',') :
    replaceFirstComma (d2 ++ sep :: f2) = d2 ++ '.' :: f2 := by
  induction d2 with
  | nil =>
    rcases hsep with h | h <;> subst h
    · simp [replaceFirstComma, replaceFirstComma_no_comma f2 hf2]
    · simp [replaceFirstComma]
  | cons c r ih =>
    have hcr := ih (fun d hdm => hd d (List.mem_cons_of_mem c hdm))
    simp only [List.cons_append, replaceFirstComma, if_neg (hd c (by simp)), List.append_eq]
    rw [hcr]

theorem parseVTTTime_parts (t p0 p1 p2 : String) (h m : ℤ) (sec : ℚ)
    (hsplit : jsSplit t (· = ':') = [p0, p1, p2])
    (hp0 : parseIntJS p0 = some h) (hp1 : parseIntJS p1 = some m)
    (hp2 : parseFloatJS ⟨replaceFirstComma p2.data⟩ = some sec) :
    parseVTTTime t = some ((h : ℚ) * 3600 + (m : ℚ) * 60 + sec) := by
  simp only [parseVTTTime, hsplit, hp0, hp1, hp2]

/-! ## Claim C8 -/

/-- C8 (amended): on a three-part timestamp `H:MM:SS.mmm` (digits, with `,`
accepted in place of `.`), `parseVTTTime` yields
`H*3600 + MM*60 + SS.mmm` seconds; a timestamp that does not split into
exactly three `:`-parts — including the `MM:SS.mmm` shape the claim promises
to handle — yields `0`.  (A three-part timestamp with non-numeric fields
yields `NaN`, not the claimed `0`.) -/
theorem parseVTTTime_conversion :
    (∀ (t : String) (d0 d1 d2 f2 : List Char) (sep : Char),
      jsSplit t (· = ':') = [⟨d0⟩, ⟨d1⟩, ⟨d2 ++ sep :: f2⟩] →
      d0 ≠ [] → d1 ≠ [] → d2 ≠ [] →
      (∀ c ∈ d0, c.isDigit = true) → (∀ c ∈ d1, c.isDigit = true) →
      (∀ c ∈ d2, c.isDigit = true) → (∀ c ∈ f2, c.isDigit = true) →
      (sep = '.' ∨ sep = ',') →
      parseVTTTime t = some ((digitsToNat d0 : ℚ) * 3600 + (digitsToNat d1 : ℚ) * 60 +
        ((digitsToNat d2 : ℚ) + (digitsToNat f2 : ℚ) / 10 ^ f2.length))) ∧
    (∀ t : String, (jsSplit t (· = ':')).length ≠ 3 → parseVTTTime t = some 0) := by
  constructor
  · intro t d0 d1 d2 f2 sep hsplit h0 h1 h2 hd0 hd1 hd2 hf2 hsep
    have hcomma : ∀ c ∈ d2, c ≠ ',' :=
      fun c hc => digit_ne_of c ',' (hd2 c hc) (by decide)
    have hcommaf : ∀ c ∈ f2, c ≠ ',' :=
      fun c hc => digit_ne_of c ',' (hf2 c hc) (by decide)
    have hrep : replaceFirstComma (d2 ++ sep :: f2) = d2 ++ '.' :: f2 :=
      replaceFirstComma_append d2 hcomma sep hsep f2 hcommaf
    have hp2 : parseFloatJS ⟨replaceFirstComma (⟨d2 ++ sep :: f2⟩ : String).data⟩ =
        some ((digitsToNat d2 : ℚ) + (digitsToNat f2 : ℚ) / 10 ^ f2.length) := by
      rw [show (⟨d2 ++ sep :: f2⟩ : String).data = d2 ++ sep :: f2 from rfl, hrep]
      exact parseFloatJS_digits d2 f2 h2 hd2 hf2
    have h := parseVTTTime_parts t ⟨d0⟩ ⟨d1⟩ ⟨d2 ++ sep :: f2⟩
      (digitsToNat d0) (digitsToNat d1) _ hsplit
      (parseIntJS_digits d0 h0 hd0) (parseIntJS_digits d1 h1 hd1) hp2
    exact h.trans (by norm_cast)
  · intro t hlen
    rcases hs : jsSplit t (· = ':') with _ | ⟨a, _ | ⟨b, _ | ⟨c, _ | ⟨d, r⟩⟩⟩⟩
    · simp [parseVTTTime, hs]
    · simp [parseVTTTime, hs]
    · simp [parseVTTTime, hs]
    · rw [hs] at hlen; simp at hlen
    · simp [parseVTTTime, hs]

/-- C8 witness: `"01:02:03,500"` (comma decimal separator) parses to
`1*3600 + 2*60 + 3.5` seconds. -/
theorem parseVTTTime_conversion_witness :
    parseVTTTime "01:02:03,500" =
      some ((digitsToNat ['0', '1'] : ℚ) * 3600 + (digitsToNat ['0', '2'] : ℚ) * 60 +
        ((digitsToNat ['0', '3'] : ℚ) + (digitsToNat ['5', '0', '0'] : ℚ) / 10 ^ 3)) := by
  have h := parseVTTTime_conversion.1 "01:02:03,500" ['0', '1'] ['0', '2'] ['0', '3']
    ['5', '0', '0'] ',' (by decide) (by decide) (by decide) (by decide)
    (by decide) (by decide) (by decide) (by decide) (Or.inr rfl)
  simpa using h

/-- C8 counterexample: the two-part shape `MM:SS.mmm` parses to `0`, not to
`MM*60 + SS.mmm` (so `"01:05.000"` gives `0` rather than `65`); and the
malformed three-part `"aa:bb:cc"` parses to `NaN`, not to the claimed `0`. -/
theorem parseVTTTime_counterexample :
    parseVTTTime "01:05.000" = some 0 ∧ (0 : ℚ) ≠ 65 ∧
    parseVTTTime "aa:bb:cc" = none := by
  refine ⟨rfl, by norm_num, rfl⟩

/-! ## Claim C6 -/



theorem parseFloatJS_05 : parseFloatJS "05.000" = some 5 := by
  have h := parseFloatJS_digits ['0', '5'] ['0', '0', '0'] (by decide) (by decide) (by decide)
  rw [show (⟨['0', '5'] ++ '.' :: ['0', '0', '0']⟩ : String) = "05.000" from by decide] at h
  rw [h]
  norm_num [show digitsToNat ['0', '5'] = 5 from by decide,
    show digitsToNat ['0', '0', '0'] = 0 from by decide]

theorem parseFloatJS_01 : parseFloatJS "01.000" = some 1 := by
  have h := parseFloatJS_digits ['0', '1'] ['0', '0', '0'] (by decide) (by decide) (by decide)
  rw [show (⟨['0', '1'] ++ '.' :: ['0', '0', '0']⟩ : String) = "01.000" from by decide] at h
  rw [h]
  norm_num [show digitsToNat ['0', '1'] = 1 from by decide,
    show digitsToNat ['0', '0', '0'] = 0 from by decide]

theorem parseVTT_five : parseVTTTime "00:00:05.000" = some 5 := by
  have hp2 : parseFloatJS ⟨replaceFirstComma ("05.000" : String).data⟩ = some 5 := by
    rw [show (⟨replaceFirstComma ("05.000" : String).data⟩ : String) = "05.000" from by decide]
    exact parseFloatJS_05
  have h := parseVTTTime_parts "00:00:05.000" "00" "00" "05.000" 0 0 5
    (by decide) (by decide) (by decide) hp2
  rw [h]
  norm_num

theorem parseVTT_one : parseVTTTime "00:00:01.000" = some 1 := by
  have hp2 : parseFloatJS ⟨replaceFirstComma ("01.000" : String).data⟩ = some 1 := by
    rw [show (⟨replaceFirstComma ("01.000" : String).data⟩ : String) = "01.000" from by decide]
    exact parseFloatJS_01
  have h := parseVTTTime_parts "00:00:01.000" "00" "00" "01.000" 0 0 1
    (by decide) (by decide) (by decide) hp2
  rw [h]
  norm_num

theorem vttCex_cues : parseVTTCues vttCounterexampleContent =
    [⟨parseVTTTime "00:00:05.000", parseVTTTime "00:00:01.000", "Hello"⟩] := rfl

/-- C6 (amended): each entry emitted by the cue parser has
`duration = end − start` with NO clamping: whenever the parsed end time is
smaller than the parsed start time the emitted duration is negative.  (Scoped
to contents whose lines carry at most one `-->`, where the embedding matches
the mutable-cue walk of the source exactly.) -/
theorem parseVTTFile_duration_unclamped (content : String)
    (hlines : ∀ l ∈ jsSplit content (· = '\n'),
      (splitOnStr "-->".data (jsTrim l).data).length ≤ 2)
    (c : VTTCue) (hc : c ∈ parseVTTCues content) (s e : ℚ)
    (hs : c.start = some s) (he : c.stop = some e) :
    vttEntryOfCue c ∈ parseVTTFile content ∧
    (vttEntryOfCue c).duration = some (e - s) ∧
    (e < s → ∃ q, (vttEntryOfCue c).duration = some q ∧ q < 0) := by
  refine ⟨List.mem_map_of_mem _ hc, ?_, ?_⟩
  · simp [vttEntryOfCue, subJS, hs, he]
  · intro hlt
    exact ⟨e - s, by simp [vttEntryOfCue, subJS, hs, he], by linarith⟩

/-- C6 witness: the cue `00:00:05.000 --> 00:00:01.000` produces the entry
with duration `1 - 5`. -/
theorem parseVTTFile_duration_unclamped_witness :
    vttEntryOfCue ⟨parseVTTTime "00:00:05.000", parseVTTTime "00:00:01.000", "Hello"⟩ ∈
      parseVTTFile vttCounterexampleContent ∧
    (vttEntryOfCue ⟨parseVTTTime "00:00:05.000", parseVTTTime "00:00:01.000", "Hello"⟩).duration
      = some ((1 : ℚ) - 5) := by
  have hmem : (⟨parseVTTTime "00:00:05.000", parseVTTTime "00:00:01.000", "Hello"⟩ : VTTCue) ∈
      parseVTTCues vttCounterexampleContent := by
    rw [vttCex_cues]
    exact List.mem_singleton.mpr rfl
  have h := parseVTTFile_duration_unclamped vttCounterexampleContent (by decide)
    ⟨parseVTTTime "00:00:05.000", parseVTTTime "00:00:01.000", "Hello"⟩ hmem 5 1
    parseVTT_five parseVTT_one
  exact ⟨h.1, h.2.1⟩

/-- C6 counterexample: the parser emits a NEGATIVE duration (−4 seconds) for a
cue whose end precedes its start — the claimed clamping to ≥ 0 does not exist
in the code. -/
theorem parseVTTFile_negative_duration_counterexample :
    (parseVTTFile vttCounterexampleContent).map VTTEntry.text = ["Hello"] ∧
    ∃ en ∈ parseVTTFile vttCounterexampleContent, ∃ q : ℚ, en.duration = some q ∧ q < 0 := by
  refine ⟨rfl,
    vttEntryOfCue ⟨parseVTTTime "00:00:05.000", parseVTTTime "00:00:01.000", "Hello"⟩,
    ?_, (1 : ℚ) - 5, ?_, by norm_num⟩
  · refine List.mem_map_of_mem _ ?_
    rw [vttCex_cues]
    exact List.mem_singleton.mpr rfl
  · simp [vttEntryOfCue, subJS, parseVTT_five, parseVTT_one]

/-! ## Claim C5 -/









/-- C5 (amended): when the first call's artifact was cached — which happens
exactly when the pipeline completed without systemic failure, the fallback
artifact never being cached — a repeated call with the same `(videoId,
language)` returns the identical artifact and the identical state: no
scripted response is consumed and the call counter does not move, i.e. the
cache hit short-circuits the pipeline with zero inference calls. -/
theorem processTranscript_cached (entries : List TimedEntry) (vid lang : String)
    (st st1 : PState) (a : LearningArtifact)
    (hrun : processTranscript entries vid lang st = (a, st1))
    (hcached : assocLookup st1.cache (cacheKey vid lang) = some a) :
    processTranscript entries vid lang st1 = (a, st1) := by
  simp only [processTranscript, hcached]

/-- C5 witness: after one successful run the second identical call returns
the very same artifact-state pair. -/
theorem processTranscript_cached_witness :
    processTranscript demoEntries "v1" "en"
        (processTranscript demoEntries "v1" "en" demoState).2 =
      ((processTranscript demoEntries "v1" "en" demoState).1,
       (processTranscript demoEntries "v1" "en" demoState).2) :=
  processTranscript_cached demoEntries "v1" "en" demoState _ _ rfl rfl

/-- C5 counterexample: when the AI service fails, the first call returns the
uncached fallback artifact, so the second identical call runs the pipeline
again — it performs another inference call (the call counter moves from 1 to
2) and produces an artifact with a different `processedAt`, contradicting the
claimed unconditional idempotence-with-no-second-calls. -/
theorem processTranscript_caching_counterexample :
    (processTranscript demoEntries "v1" "en" failingState).2.calls = 1 ∧
    (processTranscript demoEntries "v1" "en"
        (processTranscript demoEntries "v1" "en" failingState).2).2.calls = 2 ∧
    (processTranscript demoEntries "v1" "en" failingState).1.processedAt ≠
      (processTranscript demoEntries "v1" "en"
        (processTranscript demoEntries "v1" "en" failingState).2).1.processedAt := by
  exact ⟨rfl, rfl, by decide⟩

/-! ## Claim C7 -/









theorem bumpLevel_of_mem :
    ∀ (d : List (String × Option Nat)) (l : String), l ∈ keysOf d → allSomeVals d →
      ∀ k, sumVals d = some k →
        keysOf (bumpLevel d l) = keysOf d ∧ allSomeVals (bumpLevel d l) ∧
        sumVals (bumpLevel d l) = some (k + 1) := by
  intro d
  induction d with
  | nil => intro l hl; simp [keysOf] at hl
  | cons p rest ih =>
    intro l hl hsome k hsum
    obtain ⟨k0, v⟩ := p
    have hv : ∃ a, v = some a := by
      have := hsome (k0, v) (by simp)
      simpa [Option.isSome_iff_exists] using this
    obtain ⟨a, rfl⟩ := hv
    have hrest : ∃ b, sumVals rest = some b := by
      rcases hb : sumVals rest with _ | b
      · simp [sumVals, addNaN, hb] at hsum
      · exact ⟨b, rfl⟩
    obtain ⟨b, hb⟩ := hrest
    have hk : k = a + b := by
      simp [sumVals, addNaN, hb] at hsum
      omega
    by_cases hkey : k0 = l
    · subst hkey
      refine ⟨by simp [bumpLevel, keysOf], ?_, ?_⟩
      · intro q hq
        simp only [bumpLevel, if_pos rfl] at hq
        rcases List.mem_cons.mp hq with h | h
        · subst h; simp
        · exact hsome q (List.mem_cons_of_mem _ h)
      · simp [bumpLevel, sumVals, addNaN, hb, hk]
        omega
    · have hl2 : l ∈ keysOf rest := by
        simp [keysOf] at hl
        rcases hl with h | h
        · exact absurd h.symm hkey
        · simpa [keysOf] using h
      have hsome2 : allSomeVals rest := fun q hq => hsome q (List.mem_cons_of_mem _ hq)
      obtain ⟨ihk, ihs, ihsum⟩ := ih l hl2 hsome2 b hb
      refine ⟨?_, ?_, ?_⟩
      · simp [bumpLevel, keysOf, if_neg hkey]
        simpa [keysOf] using ihk
      · intro q hq
        simp only [bumpLevel, if_neg hkey] at hq
        rcases List.mem_cons.mp hq with h | h
        · subst h; simp
        · exact ihs q h
      · simp [bumpLevel, if_neg hkey, sumVals, addNaN, ihsum, hk]
        omega

theorem foldl_bumpLevel (levels : List String) :
    ∀ (d : List (String × Option Nat)), (∀ l ∈ levels, l ∈ keysOf d) → allSomeVals d →
      ∀ k, sumVals d = some k →
        allSomeVals (levels.foldl bumpLevel d) ∧
        sumVals (levels.foldl bumpLevel d) = some (k + levels.length) := by
  induction levels with
  | nil => intro d _ hsome k hsum; simpa using ⟨hsome, hsum⟩
  | cons l ls ih =>
    intro d hmem hsome k hsum
    obtain ⟨hk, hs, hsum2⟩ := bumpLevel_of_mem d l (hmem l (by simp)) hsome k hsum
    have hmem2 : ∀ x ∈ ls, x ∈ keysOf (bumpLevel d l) := by
      intro x hx
      rw [hk]
      exact hmem x (List.mem_cons_of_mem _ hx)
    obtain ⟨hs2, hsum3⟩ := ih (bumpLevel d l) hmem2 hs (k + 1) hsum2
    refine ⟨hs2, ?_⟩
    rw [List.foldl_cons] at *
    rw [hsum3]
    congr 1
    simp
    omega

theorem foldl_add_eq_sum {β : Type} (f : β → Nat) (l : List β) :
    l.foldl (fun sum s => sum + f s) 0 = (l.map f).sum := by
  rw [List.sum_eq_foldl, List.foldl_map]

/-- C7 (amended): `totalSentences` and `totalWords` match the sentence list
unconditionally, on the AI path (`generateLearningInsights`) and on the
fallback path (`fallbackProcessing`).  The difficulty distribution's values
are all actual non-negative counts summing to `totalSentences` PROVIDED every
sentence's complexity level lies in `{A1..C2}`; a level outside that set (as
model-returned JSON can produce) makes the code increment a missing key,
creating a `NaN` entry and breaking the sum.  The fallback path satisfies the
distribution invariant unconditionally. -/
theorem insights_invariants :
    (∀ sentences : List Sentence,
      (generateLearningInsights sentences).totalSentences = sentences.length ∧
      (generateLearningInsights sentences).totalWords =
        (sentences.map Sentence.wordCount).sum) ∧
    (∀ sentences : List Sentence, (∀ s ∈ sentences, s.complexity.level ∈ cefrLevels) →
      allSomeVals (generateLearningInsights sentences).difficultyDistribution ∧
      sumVals (generateLearningInsights sentences).difficultyDistribution =
        some (generateLearningInsights sentences).totalSentences) ∧
    (∀ (entries : List TimedEntry) (vid lang : String) (st : PState),
      (fallbackProcessing entries vid lang st).1.insights.totalSentences =
        (fallbackProcessing entries vid lang st).1.sentences.length ∧
      (fallbackProcessing entries vid lang st).1.insights.totalWords =
        ((fallbackProcessing entries vid lang st).1.sentences.map Sentence.wordCount).sum ∧
      allSomeVals (fallbackProcessing entries vid lang st).1.insights.difficultyDistribution ∧
      sumVals (fallbackProcessing entries vid lang st).1.insights.difficultyDistribution =
        some (fallbackProcessing entries vid lang st).1.insights.totalSentences) := by
  refine ⟨?_, ?_, ?_⟩
  · intro sentences
    exact ⟨rfl, foldl_add_eq_sum Sentence.wordCount sentences⟩
  · intro sentences hlv
    have hmem : ∀ l ∈ sentences.map (fun s => s.complexity.level), l ∈ keysOf initDistribution := by
      intro l hlm
      obtain ⟨s, hs, rfl⟩ := List.mem_map.mp hlm
      have := hlv s hs
      simpa [cefrLevels, keysOf, initDistribution] using this
    have h := foldl_bumpLevel (sentences.map (fun s => s.complexity.level)) initDistribution
      hmem (by intro p hp; fin_cases hp <;> simp) 0 rfl
    have hts : (generateLearningInsights sentences).totalSentences = sentences.length := rfl
    have hdd : (generateLearningInsights sentences).difficultyDistribution =
        calculateDifficultyDistribution (sentences.map (fun s => s.complexity.level)) := rfl
    rw [hdd, hts]
    unfold calculateDifficultyDistribution
    refine ⟨h.1, ?_⟩
    rw [h.2]
    simp
  · intro entries vid lang st
    refine ⟨rfl, foldl_add_eq_sum Sentence.wordCount _, ?_, ?_⟩
    · intro p hp
      simp only [fallbackProcessing] at hp
      fin_cases hp <;> simp
    · simp [fallbackProcessing, sumVals, addNaN]





/-- C7 witness: for a single fallback-shaped sentence (level A2) every
distribution value is a number and the values sum to `totalSentences`. -/
theorem insights_invariants_witness :
    allSomeVals (generateLearningInsights [fallbackSentence 0 ⟨"Hi.", 0, 2⟩]).difficultyDistribution ∧
    sumVals (generateLearningInsights [fallbackSentence 0 ⟨"Hi.", 0, 2⟩]).difficultyDistribution =
      some (generateLearningInsights [fallbackSentence 0 ⟨"Hi.", 0, 2⟩]).totalSentences :=
  insights_invariants.2.1 [fallbackSentence 0 ⟨"Hi.", 0, 2⟩] (by decide)

/-- C7 counterexample: an artifact produced by the pipeline from a
model-returned complexity level `"X9"` carries a difficulty distribution with
a `NaN` value under the key `"X9"`; its values no longer sum to
`totalSentences` (the sum itself is `NaN`), contradicting the claimed
unconditional invariant. -/
theorem insights_invariants_counterexample :
    (processTranscript [⟨"Hello", 0, 2⟩] "vX" "en" weirdState).1.insights.totalSentences = 1 ∧
    ("X9", none) ∈
      (processTranscript [⟨"Hello", 0, 2⟩] "vX" "en" weirdState).1.insights.difficultyDistribution ∧
    sumVals
      (processTranscript [⟨"Hello", 0, 2⟩] "vX" "en" weirdState).1.insights.difficultyDistribution =
      none ∧
    ¬ allSomeVals
      (processTranscript [⟨"Hello", 0, 2⟩] "vX" "en" weirdState).1.insights.difficultyDistribution := by
  exact ⟨rfl, by decide, rfl, by decide⟩
